import Mathlib

/-
Shallow embedding of the progressive-unlock and mastery-tracking engine of
the N5 Japanese flashcard application.  Sources embedded here:
  - src/unnamed/part_002 (the App component): constants, getDiscoveredPool,
    unlockedSets, combinedDiscoveredPool, startQuiz, handleAnswer,
    getStatus, getProficiency.
  - src/types.ts: CharacterType, ProgressStatus, ProficiencyLevel,
    JapaneseChar, QuizState, UserProgress, MnemonicResponse.
  - src/services/geminiService.ts: getMnemonicForChar.
JavaScript objects used as counter maps (weakIds, successCounts) are
modelled as total functions String -> Int with default 0: the source only
reads them through (m[id] || 0) and through truthiness tests, for which an
absent key and a stored 0 are indistinguishable.
-/

namespace Japanese

/-- CharacterType from src/types.ts. -/
inductive CharacterType
  | hiragana
  | katakana
  | kanji
  | vocabulary
  | general
  | grammar
deriving DecidableEq, Repr

/-- ProgressStatus from src/types.ts. -/
inductive ProgressStatus
  | NotStarted
  | InProgress
  | Completed
deriving DecidableEq, Repr

/-- ProficiencyLevel from src/types.ts. -/
inductive ProficiencyLevel
  | None
  | Beginner
  | Intermediate
  | Advanced
deriving DecidableEq, Repr

/-- JapaneseChar from src/types.ts, restricted to the fields the engine
reads; meaning is optional in the source and is an Option here. -/
structure JapaneseChar where
  id : String
  char : String
  romaji : String
  meaning : Option String
  type : CharacterType
deriving DecidableEq, Repr

/-- UserProgress from src/types.ts.  masteredIds is the array of mastered
ids; weakIds and successCounts are the counter maps, total with default 0. -/
structure UserProgress where
  masteredIds : List String
  weakIds : String → Int
  successCounts : String → Int

/-- QuizState from src/types.ts. -/
structure QuizState where
  isActive : Bool
  currentIndex : Nat
  score : Nat
  questions : List JapaneseChar
  mistakes : List String

/-- MnemonicResponse from src/types.ts. -/
structure MnemonicResponse where
  character : String
  mnemonic : String
  exampleSentence : String
  translation : String
deriving DecidableEq, Repr

/-- MASTERY_THRESHOLD = 3 (part_002 line 9). -/
def MASTERY_THRESHOLD : Int := 3

/-- PROFICIENCY_INTERMEDIATE = 5 (part_002 line 10). -/
def PROFICIENCY_INTERMEDIATE : Int := 5

/-- PROFICIENCY_ADVANCED = 8 (part_002 line 11). -/
def PROFICIENCY_ADVANCED : Int := 8

/-- INITIAL_INTRO_COUNT = 10 (part_002 line 12). -/
def INITIAL_INTRO_COUNT : Nat := 10

/-- Count of catalog items whose id occurs in masteredIds:
fullPool.filter(c => progress.masteredIds.includes(c.id)).length
(part_002 line 69). -/
def masteredCountWithin (p : UserProgress) (fullPool : List JapaneseChar) : Nat :=
  (fullPool.filter fun c => decide (c.id ∈ p.masteredIds)).length

/-- getDiscoveredPool (part_002 lines 68-72): allowedCount =
INITIAL_INTRO_COUNT + categoryMasteredCount, result =
fullPool.slice(0, min(allowedCount, fullPool.length)). -/
def getDiscoveredPool (p : UserProgress) (fullPool : List JapaneseChar) : List JapaneseChar :=
  fullPool.take (min (INITIAL_INTRO_COUNT + masteredCountWithin p fullPool) fullPool.length)

/-- The four content catalogs imported from constants.ts (that file is not
part of the repository snapshot; the catalogs are external read-only input,
so they are a parameter of the embedding). -/
structure Catalogs where
  hiragana : List JapaneseChar
  katakana : List JapaneseChar
  kanji : List JapaneseChar
  vocabulary : List JapaneseChar

/-- combinedDiscoveredPool (part_002 lines 81-86): concatenation of the four
discovered pools in the fixed order hiragana, katakana, kanji, vocabulary. -/
def combinedDiscoveredPool (cats : Catalogs) (p : UserProgress) : List JapaneseChar :=
  getDiscoveredPool p cats.hiragana ++ getDiscoveredPool p cats.katakana ++
    getDiscoveredPool p cats.kanji ++ getDiscoveredPool p cats.vocabulary

/-- The values actually passed as the type argument of startQuiz in the
source: the general target (lines 285) and the four category ids
(lines 300-303, 323); grammar is never passed. -/
inductive QuizTarget
  | hiragana
  | katakana
  | kanji
  | vocabulary
  | general
deriving DecidableEq, Repr

/-- The session pool and session length chosen by startQuiz (part_002
lines 123-130): count 20 and the combined pool for the general target,
count 10 and the single discovered pool otherwise. -/
def targetPool (cats : Catalogs) (p : UserProgress) : QuizTarget → List JapaneseChar × Nat
  | QuizTarget.general => (combinedDiscoveredPool cats p, 20)
  | QuizTarget.hiragana => (getDiscoveredPool p cats.hiragana, 10)
  | QuizTarget.katakana => (getDiscoveredPool p cats.katakana, 10)
  | QuizTarget.kanji => (getDiscoveredPool p cats.kanji, 10)
  | QuizTarget.vocabulary => (getDiscoveredPool p cats.vocabulary, 10)

/-- startQuiz (part_002 lines 122-143).  The source shuffles with
Array.prototype.sort under an inconsistent random comparator; ECMAScript
only guarantees that sort returns a permutation of its input, so the
shuffle is a parameter of the embedding (theorems assume it permutes).
In review mode the pool is filtered by the truthiness of
progress.weakIds[c.id], that is by a nonzero stored count; an empty
filtered pool aborts (the alert path, modelled as none) with no session
created.  The returned session has currentIndex 0, score 0, questions =
shuffled pool truncated to count, mistakes empty. -/
def startQuiz (shuffle : List JapaneseChar → List JapaneseChar) (cats : Catalogs)
    (p : UserProgress) (t : QuizTarget) (reviewMistakes : Bool) : Option QuizState :=
  let pc := targetPool cats p t
  if reviewMistakes then
    let filtered := pc.1.filter fun c => decide (p.weakIds c.id ≠ 0)
    if filtered.isEmpty then none
    else some { isActive := true, currentIndex := 0, score := 0,
                questions := (shuffle filtered).take pc.2, mistakes := [] }
  else
    some { isActive := true, currentIndex := 0, score := 0,
           questions := (shuffle pc.1).take pc.2, mistakes := [] }

/-- The quiz and progress parts of the application state touched by
startQuiz and handleAnswer. -/
structure AppState where
  quiz : QuizState
  progress : UserProgress

/-- startQuiz as a state transformer: on the abort path (review mode with
an empty filtered pool) the source returns before any setQuiz or
setProgress call, so the state is untouched; otherwise only quiz is set. -/
def startQuizApp (shuffle : List JapaneseChar → List JapaneseChar) (cats : Catalogs)
    (t : QuizTarget) (reviewMistakes : Bool) (s : AppState) : AppState :=
  match startQuiz shuffle cats s.progress t reviewMistakes with
  | none => s
  | some q => { s with quiz := q }

/-- Expected answer of handleAnswer (part_002 lines 163-164):
meaning for kanji and vocabulary questions, romaji otherwise.  The meaning
field may be absent, in which case the JavaScript comparison
answer === undefined is false for every string answer. -/
def expectedAnswer (c : JapaneseChar) : Option String :=
  if c.type = CharacterType.kanji ∨ c.type = CharacterType.vocabulary then c.meaning
  else some c.romaji

/-- isCorrect = answer === correctAnswer (part_002 line 165), exact string
equality, false when the expected answer is absent. -/
def isCorrect (c : JapaneseChar) (answer : String) : Bool :=
  match expectedAnswer c with
  | some e => answer == e
  | none => false

/-- Progress update of the correct branch (part_002 lines 168-176):
increment successCounts[id]; push id onto masteredIds when the
post-increment count reaches MASTERY_THRESHOLD and id is not yet a member. -/
def applyCorrect (p : UserProgress) (id : String) : UserProgress :=
  let newCount : Int := p.successCounts id + 1
  { p with
    successCounts := fun k => if k = id then newCount else p.successCounts k,
    masteredIds :=
      if MASTERY_THRESHOLD ≤ newCount ∧ id ∉ p.masteredIds then p.masteredIds ++ [id]
      else p.masteredIds }

/-- Progress update of the incorrect branch (part_002 lines 180-186):
increment weakIds[id] (default 0 for an absent key), clamp the decremented
success count at 0. -/
def applyIncorrect (p : UserProgress) (id : String) : UserProgress :=
  { p with
    weakIds := fun k => if k = id then p.weakIds id + 1 else p.weakIds k,
    successCounts := fun k => if k = id then max 0 (p.successCounts id - 1) else p.successCounts k }

/-- The progress component of one answer evaluation (part_002
lines 161-186). -/
def evalProgress (p : UserProgress) (c : JapaneseChar) (answer : String) : UserProgress :=
  if isCorrect c answer then applyCorrect p c.id else applyIncorrect p c.id

/-- Quiz-state and progress effect of handleAnswer (part_002
lines 161-186): on correct, score + 1; on incorrect, id appended to the
session mistakes list. -/
def handleAnswer (q : QuizState) (p : UserProgress) (c : JapaneseChar) (answer : String) :
    QuizState × UserProgress :=
  if isCorrect c answer then
    ({ q with score := q.score + 1 }, applyCorrect p c.id)
  else
    ({ q with mistakes := q.mistakes ++ [c.id] }, applyIncorrect p c.id)

/-- getStatus (part_002 lines 219-224). -/
def getStatus (p : UserProgress) (charId : String) : ProgressStatus :=
  if charId ∈ p.masteredIds then ProgressStatus.Completed
  else if 0 < p.successCounts charId then ProgressStatus.InProgress
  else ProgressStatus.NotStarted

/-- getProficiency (part_002 lines 226-232): reads only
successCounts[charId]. -/
def getProficiency (p : UserProgress) (charId : String) : ProficiencyLevel :=
  if PROFICIENCY_ADVANCED ≤ p.successCounts charId then ProficiencyLevel.Advanced
  else if PROFICIENCY_INTERMEDIATE ≤ p.successCounts charId then ProficiencyLevel.Intermediate
  else if 0 < p.successCounts charId then ProficiencyLevel.Beginner
  else ProficiencyLevel.None

/-- Outcome of the external mnemonic request as observed inside
getMnemonicForChar (geminiService).  ok: the request resolved with parsable
text; malformed: the text failed JSON.parse; emptyText: the response had no
text; failureMsg: the request rejected with the given error message
(authentication failures carry the message Requested entity was not found). -/
inductive HintOutcome
  | ok (m : MnemonicResponse)
  | malformed
  | emptyText
  | failureMsg (msg : String)
deriving DecidableEq, Repr

/-- getMnemonicForChar (geminiService lines 5-41): the whole body, request
included, sits inside one try whose catch logs and returns null, so every
failure outcome, authentication failures and malformed payloads included,
yields null and the promise never rejects. -/
def getMnemonicForChar : HintOutcome → Option MnemonicResponse
  | HintOutcome.ok m => some m
  | HintOutcome.malformed => none
  | HintOutcome.emptyText => none
  | HintOutcome.failureMsg _ => none

/-- What handleAnswer exposes after the hint request of the incorrect
branch: the mnemonic display, the processing flag, the global error banner
and the has-key flag clearing, along with the progress record (not written
in this region of the source). -/
structure HintPhaseResult where
  mnemonic : Option MnemonicResponse
  isProcessing : Bool
  globalError : Option String
  hasKeyCleared : Bool
  progress : UserProgress

/-- Whether the second character list is an initial segment of the first. -/
def listStartsWith : List Char → List Char → Bool
  | _, [] => true
  | [], _ :: _ => false
  | a :: as, b :: bs => a == b && listStartsWith as bs

/-- Whether the second character list occurs contiguously in the first. -/
def listContainsSeq : List Char → List Char → Bool
  | [], pat => pat.isEmpty
  | a :: as, pat => listStartsWith (a :: as) pat || listContainsSeq as pat

/-- String containment test mirroring err.message.includes(pat). -/
def strIncludes (s pat : String) : Bool := listContainsSeq s.data pat.data

/-- The catch handler of handleAnswer (part_002 lines 191-198), written in
the source for a rejected hint promise: an authentication message clears
the has-key flag and surfaces the invalid-credential banner, any other
message surfaces the hint-unavailable banner.  Because getMnemonicForChar
never rejects, this handler is unreachable in the composed program. -/
def handleAnswerCatch (p : UserProgress) (msg : String) : HintPhaseResult :=
  if strIncludes msg "Requested entity was not found" then
    { mnemonic := none, isProcessing := false,
      globalError := some "Please select a valid paid API key",
      hasKeyCleared := true, progress := p }
  else
    { mnemonic := none, isProcessing := false,
      globalError := some "Could not fetch mnemonic tip",
      hasKeyCleared := false, progress := p }

/-- The hint phase of handleAnswer (part_002 lines 187-199) composed with
getMnemonicForChar: a non-null tip is displayed (processing stays set until
the user advances); a null tip only clears the processing flag.  The catch
branch never runs because the service returns null on every failure. -/
def hintPhase (p : UserProgress) (o : HintOutcome) : HintPhaseResult :=
  match getMnemonicForChar o with
  | some tip =>
      { mnemonic := some tip, isProcessing := true, globalError := none,
        hasKeyCleared := false, progress := p }
  | none =>
      { mnemonic := none, isProcessing := false, globalError := none,
        hasKeyCleared := false, progress := p }

/-- Initial progress record (part_002 line 27). -/
def emptyProgress : UserProgress :=
  { masteredIds := [], weakIds := fun _ => 0, successCounts := fun _ => 0 }

/-- A concrete hiragana catalog item for witnesses. -/
def sampleHiragana : JapaneseChar :=
  { id := "h1", char := "や", romaji := "ya", meaning := none, type := CharacterType.hiragana }

/-- A concrete kanji catalog item for witnesses. -/
def sampleKanji : JapaneseChar :=
  { id := "k1", char := "日", romaji := "nichi", meaning := some "sun", type := CharacterType.kanji }

/-- Inactive initial quiz state (part_002 lines 18-24). -/
def quiz0 : QuizState :=
  { isActive := false, currentIndex := 0, score := 0, questions := [], mistakes := [] }

/-- Scenario with the hiragana item answered correctly twice, then
incorrectly once, from a fresh record. -/
def scenarioC : UserProgress :=
  evalProgress (evalProgress (evalProgress emptyProgress sampleHiragana "ya")
    sampleHiragana "ya") sampleHiragana "wrong"

/-- A record in which the sample hiragana item is mastered with success
count 8. -/
def advancedProgress : UserProgress :=
  { masteredIds := ["h1"], weakIds := fun _ => 0,
    successCounts := fun k => if k = "h1" then 8 else 0 }

/-- A record in which the sample hiragana item has one tracked mistake. -/
def weakProgress : UserProgress :=
  { masteredIds := [], weakIds := fun k => if k = "h1" then 1 else 0,
    successCounts := fun _ => 0 }

/-- A small concrete catalog set for witnesses. -/
def cats0 : Catalogs :=
  { hiragana := [sampleHiragana], katakana := [], kanji := [sampleKanji], vocabulary := [] }

/-- Growing masteredIds can only grow the per-category mastered count. -/
theorem masteredCountWithin_mono (pool : List JapaneseChar) (p p' : UserProgress)
    (hsub : p.masteredIds ⊆ p'.masteredIds) :
    masteredCountWithin p pool ≤ masteredCountWithin p' pool := by
  apply List.Sublist.length_le
  apply List.monotone_filter_right
  intro a ha
  simp only [decide_eq_true_eq] at ha ⊢
  exact hsub ha

/-- C1: for every category catalog and progress record the discovered pool
equals the first min(INITIAL_INTRO_COUNT + masteredCountWithinCategory,
catalogLength) items of the catalog in catalog order; its length is
monotone non-decreasing as masteredIds grows, and always lies in the
closed range from min 10 catalogLength to catalogLength. -/
theorem prop_C1 (pool : List JapaneseChar) (p p' : UserProgress)
    (hsub : p.masteredIds ⊆ p'.masteredIds) :
    getDiscoveredPool p pool =
      pool.take (min (INITIAL_INTRO_COUNT + masteredCountWithin p pool) pool.length)
    ∧ (getDiscoveredPool p pool).length ≤ (getDiscoveredPool p' pool).length
    ∧ min 10 pool.length ≤ (getDiscoveredPool p pool).length
    ∧ (getDiscoveredPool p pool).length ≤ pool.length := by
  have hmono := masteredCountWithin_mono pool p p' hsub
  refine ⟨rfl, ?_, ?_, ?_⟩ <;>
    simp only [getDiscoveredPool, List.length_take, INITIAL_INTRO_COUNT] <;> omega

/-- C1 witness at a concrete catalog and a concrete pair of records. -/
theorem prop_C1_witness :
    emptyProgress.masteredIds ⊆ advancedProgress.masteredIds ∧
    (getDiscoveredPool emptyProgress [sampleHiragana]).length ≤
      (getDiscoveredPool advancedProgress [sampleHiragana]).length :=
  ⟨by simp [emptyProgress],
   (prop_C1 [sampleHiragana] emptyProgress advancedProgress (by simp [emptyProgress])).2.1⟩

/-- C2: isCorrect is exact string equality of the submitted answer against
the meaning for kanji and vocabulary items and against the romaji
otherwise; on a correct answer successCounts[id] is incremented by 1 and
only at id, id joins masteredIds exactly when the post-increment count
reaches MASTERY_THRESHOLD and it was not already a member (membership is
idempotent thereafter), and the session score is incremented by 1. -/
theorem prop_C2 (c : JapaneseChar) (answer : String) (q : QuizState) (p : UserProgress) :
    (isCorrect c answer = true ↔
      (if c.type = CharacterType.kanji ∨ c.type = CharacterType.vocabulary
       then c.meaning = some answer else answer = c.romaji))
    ∧ (isCorrect c answer = true →
        (handleAnswer q p c answer).2.successCounts c.id = p.successCounts c.id + 1
        ∧ (∀ k, k ≠ c.id →
            (handleAnswer q p c answer).2.successCounts k = p.successCounts k)
        ∧ (handleAnswer q p c answer).2.masteredIds =
            (if MASTERY_THRESHOLD ≤ p.successCounts c.id + 1 ∧ c.id ∉ p.masteredIds
             then p.masteredIds ++ [c.id] else p.masteredIds)
        ∧ (c.id ∈ (handleAnswer q p c answer).2.masteredIds ↔
            (MASTERY_THRESHOLD ≤ p.successCounts c.id + 1 ∨ c.id ∈ p.masteredIds))
        ∧ (handleAnswer q p c answer).1.score = q.score + 1) := by
  constructor
  · by_cases ht : c.type = CharacterType.kanji ∨ c.type = CharacterType.vocabulary
    · rw [if_pos ht]
      unfold isCorrect expectedAnswer
      rw [if_pos ht]
      cases c.meaning with
      | none => simp
      | some m =>
        simp only [beq_iff_eq, Option.some.injEq]
        exact eq_comm
    · rw [if_neg ht]
      unfold isCorrect expectedAnswer
      rw [if_neg ht]
      simp only [beq_iff_eq]
  · intro h
    have hans : handleAnswer q p c answer =
        ({ q with score := q.score + 1 }, applyCorrect p c.id) := by
      unfold handleAnswer
      rw [if_pos h]
    rw [hans]
    unfold applyCorrect
    dsimp only
    refine ⟨by simp, fun k hk => by simp [hk], rfl, ?_, rfl⟩
    by_cases hm : MASTERY_THRESHOLD ≤ p.successCounts c.id + 1 ∧ c.id ∉ p.masteredIds
    · rw [if_pos hm]
      simp only [List.mem_append, List.mem_singleton]
      tauto
    · rw [if_neg hm]
      rw [not_and_or, not_not] at hm
      constructor
      · exact fun hmem => Or.inr hmem
      · rintro (h3 | hmem)
        · rcases hm with hm | hm
          · omega
          · exact hm
        · exact hmem

/-- C2 witness: a correct kanji answer on a fresh record. -/
theorem prop_C2_witness :
    isCorrect sampleKanji "sun" = true ∧
    (handleAnswer quiz0 emptyProgress sampleKanji "sun").2.successCounts sampleKanji.id =
      emptyProgress.successCounts sampleKanji.id + 1 :=
  ⟨by decide, ((prop_C2 sampleKanji "sun" quiz0 emptyProgress).2 (by decide)).1⟩

/-- C3: on an incorrect answer, weakIds[id] is incremented by 1 (starting
from the default 0 when the key is absent) and only at id, successCounts[id]
becomes max 0 (old - 1) and is never negative, other keys are untouched,
and id is appended to the session mistakes list without deduplication;
the correct-correct-incorrect scenario ends with success count 1, weak
count 1 and the item not mastered. -/
theorem prop_C3 (c : JapaneseChar) (answer : String) (q : QuizState) (p : UserProgress)
    (h : isCorrect c answer = false) :
    (handleAnswer q p c answer).2.weakIds c.id = p.weakIds c.id + 1
    ∧ (∀ k, k ≠ c.id → (handleAnswer q p c answer).2.weakIds k = p.weakIds k)
    ∧ (handleAnswer q p c answer).2.successCounts c.id = max 0 (p.successCounts c.id - 1)
    ∧ 0 ≤ (handleAnswer q p c answer).2.successCounts c.id
    ∧ (∀ k, k ≠ c.id → (handleAnswer q p c answer).2.successCounts k = p.successCounts k)
    ∧ (handleAnswer q p c answer).1.mistakes = q.mistakes ++ [c.id]
    ∧ (scenarioC.successCounts "h1" = 1 ∧ scenarioC.weakIds "h1" = 1
       ∧ "h1" ∉ scenarioC.masteredIds) := by
  have hans : handleAnswer q p c answer =
      ({ q with mistakes := q.mistakes ++ [c.id] }, applyIncorrect p c.id) := by
    unfold handleAnswer
    rw [if_neg (by simp [h])]
  rw [hans]
  unfold applyIncorrect
  dsimp only
  refine ⟨by simp, fun k hk => by simp [hk], by simp, ?_, fun k hk => by simp [hk],
    rfl, by decide⟩
  simp

/-- C3 witness: an incorrect kanji answer on a fresh record. -/
theorem prop_C3_witness :
    isCorrect sampleKanji "moon" = false ∧
    (handleAnswer quiz0 emptyProgress sampleKanji "moon").1.mistakes =
      quiz0.mistakes ++ [sampleKanji.id] :=
  ⟨by decide, (prop_C3 sampleKanji "moon" quiz0 emptyProgress (by decide)).2.2.2.2.2.1⟩

/-- One answer evaluation never removes an id from masteredIds. -/
theorem masteredIds_mono_step (p : UserProgress) (c : JapaneseChar) (answer : String)
    (id : String) (h : id ∈ p.masteredIds) : id ∈ (evalProgress p c answer).masteredIds := by
  unfold evalProgress
  split
  · unfold applyCorrect
    dsimp only
    split
    · exact List.mem_append_left _ h
    · exact h
  · exact h

/-- C4: mastery is permanent: once id is in masteredIds it stays a member
after any sequence of subsequent answer evaluations, incorrect answers for
that id included. -/
theorem prop_C4 (id : String) (p : UserProgress) (events : List (JapaneseChar × String))
    (h : id ∈ p.masteredIds) :
    id ∈ (events.foldl (fun st e => evalProgress st e.1 e.2) p).masteredIds := by
  induction events generalizing p with
  | nil => exact h
  | cons e rest ih => exact ih _ (masteredIds_mono_step p e.1 e.2 id h)

/-- C4 witness: a mastered item survives two incorrect answers. -/
theorem prop_C4_witness :
    "h1" ∈ advancedProgress.masteredIds ∧
    "h1" ∈ (([(sampleHiragana, "wrong"), (sampleHiragana, "wrong")]).foldl
      (fun st e => evalProgress st e.1 e.2) advancedProgress).masteredIds :=
  ⟨by decide,
   prop_C4 "h1" advancedProgress [(sampleHiragana, "wrong"), (sampleHiragana, "wrong")]
     (by decide)⟩

/-- C9: getStatus returns Completed exactly on mastered ids, else
InProgress exactly when the success count is positive, else NotStarted;
getProficiency reads only successCounts[id] (independent of mastery) and
tiers it as None at 0, Beginner above 0, Intermediate from 5, Advanced
from 8; consequently a mistake can lower the proficiency tier of a
mastered item while its status stays Completed. -/
theorem prop_C9 (id : String) (p : UserProgress) :
    (getStatus p id = ProgressStatus.Completed ↔ id ∈ p.masteredIds)
    ∧ (id ∉ p.masteredIds →
        (getStatus p id = ProgressStatus.InProgress ↔ 0 < p.successCounts id))
    ∧ (id ∉ p.masteredIds → p.successCounts id ≤ 0 →
        getStatus p id = ProgressStatus.NotStarted)
    ∧ (∀ q : UserProgress, q.successCounts id = p.successCounts id →
        getProficiency q id = getProficiency p id)
    ∧ (getProficiency p id = ProficiencyLevel.None ↔ p.successCounts id ≤ 0)
    ∧ (getProficiency p id = ProficiencyLevel.Beginner ↔
        (0 < p.successCounts id ∧ p.successCounts id < PROFICIENCY_INTERMEDIATE))
    ∧ (getProficiency p id = ProficiencyLevel.Intermediate ↔
        (PROFICIENCY_INTERMEDIATE ≤ p.successCounts id ∧
          p.successCounts id < PROFICIENCY_ADVANCED))
    ∧ (getProficiency p id = ProficiencyLevel.Advanced ↔
        PROFICIENCY_ADVANCED ≤ p.successCounts id)
    ∧ (getProficiency advancedProgress "h1" = ProficiencyLevel.Advanced
       ∧ getStatus advancedProgress "h1" = ProgressStatus.Completed
       ∧ getProficiency (evalProgress advancedProgress sampleHiragana "wrong") "h1" =
           ProficiencyLevel.Intermediate
       ∧ getStatus (evalProgress advancedProgress sampleHiragana "wrong") "h1" =
           ProgressStatus.Completed) := by
  refine ⟨?_, ?_, ?_, ?_, ?_, ?_, ?_, ?_, by decide⟩
  · unfold getStatus
    split_ifs <;> simp_all
  · intro hm
    unfold getStatus
    split_ifs <;> simp_all
  · intro hm hs
    unfold getStatus
    rw [if_neg hm, if_neg (by omega)]
  · intro q hq
    unfold getProficiency
    rw [hq]
  · unfold getProficiency PROFICIENCY_ADVANCED PROFICIENCY_INTERMEDIATE
    split_ifs <;> first | (simp_all; omega) | simp_all
  · unfold getProficiency PROFICIENCY_ADVANCED PROFICIENCY_INTERMEDIATE
    split_ifs <;> first | (simp_all; omega) | simp_all
  · unfold getProficiency PROFICIENCY_ADVANCED PROFICIENCY_INTERMEDIATE
    split_ifs <;> simp_all
  · unfold getProficiency PROFICIENCY_ADVANCED PROFICIENCY_INTERMEDIATE
    split_ifs <;> simp_all

/-- C9 witness: classifier values on a concrete record. -/
theorem prop_C9_witness :
    getStatus advancedProgress "h1" = ProgressStatus.Completed ∧
    getProficiency advancedProgress "h1" = ProficiencyLevel.Advanced :=
  ⟨(prop_C9 "h1" advancedProgress).1.mpr (by decide),
   (prop_C9 "h1" advancedProgress).2.2.2.2.2.2.2.1.mpr (by decide)⟩

/-- C10: frame property of the evaluator: a correct answer leaves weakIds
entirely unchanged, an incorrect answer leaves masteredIds entirely
unchanged, and no evaluation ever decreases any weak count. -/
theorem prop_C10 (c : JapaneseChar) (answer : String) (q : QuizState) (p : UserProgress) :
    (isCorrect c answer = true → (handleAnswer q p c answer).2.weakIds = p.weakIds)
    ∧ (isCorrect c answer = false →
        (handleAnswer q p c answer).2.masteredIds = p.masteredIds)
    ∧ (∀ k, p.weakIds k ≤ (evalProgress p c answer).weakIds k) := by
  refine ⟨?_, ?_, ?_⟩
  · intro h
    simp [handleAnswer, h, applyCorrect]
  · intro h
    simp [handleAnswer, h, applyIncorrect]
  · intro k
    unfold evalProgress
    split
    · exact le_refl _
    · unfold applyIncorrect
      dsimp only
      by_cases hk : k = c.id
      · subst hk
        simp
      · simp [hk]

/-- C10 witness: a correct answer on a record with a tracked mistake. -/
theorem prop_C10_witness :
    isCorrect sampleKanji "sun" = true ∧
    (handleAnswer quiz0 weakProgress sampleKanji "sun").2.weakIds = weakProgress.weakIds :=
  ⟨by decide, (prop_C10 sampleKanji "sun" quiz0 weakProgress).1 (by decide)⟩

/-- C6: the general target draws from the concatenation of the four
discovered pools in the fixed order hiragana, katakana, kanji, vocabulary
with session length 20; every single-category target draws from that
category discovered pool with session length 10; in all non-review cases a
session is returned whose questions are the shuffled pool truncated to the
session length (hence at most 20 or 10 questions, all drawn from the
candidate pool) and which starts with currentIndex 0, score 0 and an empty
mistakes list. -/
theorem prop_C6 (shuffle : List JapaneseChar → List JapaneseChar) (cats : Catalogs)
    (p : UserProgress) (hsh : ∀ l, (shuffle l).Perm l) :
    (targetPool cats p QuizTarget.general = (combinedDiscoveredPool cats p, 20))
    ∧ (targetPool cats p QuizTarget.hiragana = (getDiscoveredPool p cats.hiragana, 10))
    ∧ (targetPool cats p QuizTarget.katakana = (getDiscoveredPool p cats.katakana, 10))
    ∧ (targetPool cats p QuizTarget.kanji = (getDiscoveredPool p cats.kanji, 10))
    ∧ (targetPool cats p QuizTarget.vocabulary = (getDiscoveredPool p cats.vocabulary, 10))
    ∧ (combinedDiscoveredPool cats p =
        getDiscoveredPool p cats.hiragana ++ getDiscoveredPool p cats.katakana ++
          getDiscoveredPool p cats.kanji ++ getDiscoveredPool p cats.vocabulary)
    ∧ (∀ t : QuizTarget, ∃ s : QuizState,
        startQuiz shuffle cats p t false = some s
        ∧ s.questions = (shuffle (targetPool cats p t).1).take (targetPool cats p t).2
        ∧ s.questions.length ≤ (targetPool cats p t).2
        ∧ (∀ c ∈ s.questions, c ∈ (targetPool cats p t).1)
        ∧ s.currentIndex = 0 ∧ s.score = 0 ∧ s.mistakes = []) := by
  refine ⟨rfl, rfl, rfl, rfl, rfl, rfl, ?_⟩
  intro t
  refine ⟨_, rfl, rfl, ?_, ?_, rfl, rfl, rfl⟩
  · exact List.length_take_le _ _
  · intro c hc
    exact (hsh _).subset (List.mem_of_mem_take hc)

/-- C6 witness at a concrete catalog set with the identity permutation. -/
theorem prop_C6_witness :
    targetPool cats0 emptyProgress QuizTarget.general =
      (combinedDiscoveredPool cats0 emptyProgress, 20) :=
  (prop_C6 (fun l => l) cats0 emptyProgress (fun l => List.Perm.refl l)).1

/-- C5: in review mode the candidate pool is first restricted to items
with a nonzero weak count (equivalently a positive one, since weak counts
of reachable records are non-negative); the operation fails exactly when
this filtered pool is empty, in which case no session is created and the
application state is untouched; when a session is created its questions
are the shuffled filtered pool truncated to the session length, so every
question has a positive weak count. -/
theorem prop_C5 (shuffle : List JapaneseChar → List JapaneseChar) (cats : Catalogs)
    (p : UserProgress) (t : QuizTarget)
    (hsh : ∀ l, (shuffle l).Perm l)
    (hw : ∀ k, 0 ≤ p.weakIds k) :
    ((targetPool cats p t).1.filter (fun c => decide (p.weakIds c.id ≠ 0)) =
      (targetPool cats p t).1.filter (fun c => decide (0 < p.weakIds c.id)))
    ∧ (startQuiz shuffle cats p t true = none ↔
        ((targetPool cats p t).1.filter (fun c => decide (p.weakIds c.id ≠ 0))).isEmpty)
    ∧ (∀ s : QuizState, startQuiz shuffle cats p t true = some s →
        s.questions =
          (shuffle ((targetPool cats p t).1.filter
            (fun c => decide (p.weakIds c.id ≠ 0)))).take (targetPool cats p t).2
        ∧ (∀ c ∈ s.questions, 0 < p.weakIds c.id))
    ∧ (((targetPool cats p t).1.filter (fun c => decide (p.weakIds c.id ≠ 0))).isEmpty →
        ∀ st : AppState, st.progress = p → startQuizApp shuffle cats t true st = st) := by
  have hstep : startQuiz shuffle cats p t true =
      (if ((targetPool cats p t).1.filter fun c => decide (p.weakIds c.id ≠ 0)).isEmpty
       then none
       else some { isActive := true, currentIndex := 0, score := 0,
                   questions := (shuffle ((targetPool cats p t).1.filter
                     fun c => decide (p.weakIds c.id ≠ 0))).take (targetPool cats p t).2,
                   mistakes := [] }) := rfl
  refine ⟨?_, ?_, ?_, ?_⟩
  · apply List.filter_congr
    intro c _
    show decide (p.weakIds c.id ≠ 0) = decide (0 < p.weakIds c.id)
    rw [decide_eq_decide]
    have := hw c.id
    omega
  · rw [hstep]
    by_cases he :
        ((targetPool cats p t).1.filter fun c => decide (p.weakIds c.id ≠ 0)).isEmpty = true
    · simp [he]
    · simp [he]
  · intro s hs
    rw [hstep] at hs
    by_cases he :
        ((targetPool cats p t).1.filter fun c => decide (p.weakIds c.id ≠ 0)).isEmpty = true
    · rw [if_pos he] at hs
      exact absurd hs (by simp)
    · rw [if_neg he] at hs
      have hq := Option.some.inj hs
      subst hq
      refine ⟨rfl, ?_⟩
      intro c hc
      have hmem := (hsh _).subset (List.mem_of_mem_take hc)
      have hne : p.weakIds c.id ≠ 0 := by
        have h1 := List.of_mem_filter hmem
        simpa using h1
      have := hw c.id
      omega
  · intro hemp st hst
    unfold startQuizApp
    rw [hst, hstep, if_pos hemp]

/-- C5 witness at a concrete record with one tracked mistake. -/
theorem prop_C5_witness :
    startQuiz (fun l => l) cats0 weakProgress QuizTarget.hiragana true = none ↔
      ((targetPool cats0 weakProgress QuizTarget.hiragana).1.filter
        (fun c => decide (weakProgress.weakIds c.id ≠ 0))).isEmpty :=
  (prop_C5 (fun l => l) cats0 weakProgress QuizTarget.hiragana
    (fun l => List.Perm.refl l)
    (by
      intro k
      show (0 : Int) ≤ if k = "h1" then 1 else 0
      split <;> omega)).2.1

/-- C8: at an authentication failure of the hint request the composed code
surfaces no condition at all: getMnemonicForChar catches the rejection and
returns null, so the evaluator only clears the processing flag, leaves the
global error banner and the has-key flag untouched, and never runs its
catch branch; the catch handler written in handleAnswer (which would have
surfaced the invalid-credential banner on this very message) is therefore
unreachable, and a malformed payload likewise surfaces nothing; the
progress record passes through every hint outcome unchanged. -/
theorem prop_C8 :
    getMnemonicForChar (HintOutcome.failureMsg "Requested entity was not found") = none
    ∧ (hintPhase emptyProgress
        (HintOutcome.failureMsg "Requested entity was not found")).globalError = none
    ∧ (hintPhase emptyProgress
        (HintOutcome.failureMsg "Requested entity was not found")).hasKeyCleared = false
    ∧ (hintPhase emptyProgress
        (HintOutcome.failureMsg "Requested entity was not found")).isProcessing = false
    ∧ (hintPhase emptyProgress
        (HintOutcome.failureMsg "Requested entity was not found")).progress = emptyProgress
    ∧ (hintPhase emptyProgress HintOutcome.malformed).globalError = none
    ∧ (hintPhase emptyProgress HintOutcome.malformed).isProcessing = false
    ∧ (handleAnswerCatch emptyProgress "Requested entity was not found").globalError =
        some "Please select a valid paid API key"
    ∧ (handleAnswerCatch emptyProgress "Requested entity was not found").hasKeyCleared = true
    ∧ (∀ p : UserProgress, ∀ o : HintOutcome, (hintPhase p o).progress = p) := by
  refine ⟨rfl, rfl, rfl, rfl, rfl, rfl, rfl, by decide, by decide, fun p o => ?_⟩
  cases o <;> rfl

end Japanese
